import Mathlib

/-
  Verification of the job-execution and collaboration core of the CodeCast
  repository.

  The definitions below are shallow embeddings of the TypeScript source:
  - src/lib/repositories/compile-job-repository.ts (Job Store on Prisma)
  - src/unnamed/part_006 (ExecutionService: admission, worker, cancel, cleanup)
  - src/lib/services/docker-service.ts (sandbox runner)
  - src/lib/repositories/room-repository.ts, participant-repository.ts,
    src/lib/services/job-processor.ts second half (RoomService)
  - src/lib/services/sync-service.ts (validateDocumentIntegrity)
  - src/app/api/compile/route.ts (request validation)

  Database rows are lists of records; `Date.now()` values are explicit `Int`
  millisecond timestamps threaded as parameters; Prisma `update` is an
  id-targeted map over the row list. The Bull queue is modelled by its ordered
  waiting list plus a count of active jobs; each waiting entry carries the
  Bull-assigned id next to the CompileJobData payload's service jobId, because
  queueJob passes no jobId option to compileQueue.add and Bull therefore
  assigns auto-increment integer ids of its own.
-/

/-- Job states, from the Prisma JobStatus enum used throughout the source. -/
inductive JobStatus where
  | queued
  | running
  | completed
  | failed
  | timeout
  | cancelled
  deriving DecidableEq, Repr

/-- Effective compile options (CompileOptions in src/lib/types): always
populated after admission merging. -/
structure CompileOptions where
  flags : List String
  timeout : Nat
  memoryLimit : String
  cpuLimit : String
  deriving DecidableEq, Repr

/-- One row of the compile_jobs table (CompileJob entity). Optional columns
are `Option`; timestamps are ms-epoch integers. -/
structure CompileJob where
  id : String
  roomId : String
  userId : String
  code : String
  options : CompileOptions
  status : JobStatus
  createdAt : Int
  startedAt : Option Int
  completedAt : Option Int
  stdout : Option String
  stderr : Option String
  exitCode : Option Int
  executionTime : Option Nat
  memoryUsed : Option Nat
  deriving DecidableEq, Repr

/-- The four sink states of the job state machine; exactly the set used in
ExecutionService.getJobStatus line 139 and the spec glossary. -/
def isTerminalStatus (st : JobStatus) : Bool :=
  st == JobStatus.completed || st == JobStatus.failed ||
  st == JobStatus.timeout || st == JobStatus.cancelled

namespace CompileJobRepository

/-- prisma.compileJob.findUnique by id over the row list. -/
def findById (jobs : List CompileJob) (id : String) : Option CompileJob :=
  jobs.find? (fun j => j.id == id)

/-- Prisma update targeted at a unique id: rewrite the matching row. -/
def updateById (jobs : List CompileJob) (id : String)
    (f : CompileJob → CompileJob) : List CompileJob :=
  jobs.map (fun j => if j.id == id then f j else j)

/-- markStarted: status RUNNING, startedAt = new Date(). Unconditional update. -/
def markStarted (j : CompileJob) (now : Int) : CompileJob :=
  { j with status := JobStatus.running, startedAt := some now }

/-- markCompleted: status COMPLETED plus the result columns. `memoryUsed` is an
optional argument; Prisma leaves the column untouched when it is undefined. -/
def markCompleted (j : CompileJob) (stdout stderr : String) (exitCode : Int)
    (executionTime : Nat) (memoryUsed : Option Nat) (now : Int) : CompileJob :=
  { j with
    status := JobStatus.completed
    completedAt := some now
    stdout := some stdout
    stderr := some stderr
    exitCode := some exitCode
    executionTime := some executionTime
    memoryUsed := match memoryUsed with
      | some m => some m
      | none => j.memoryUsed }

/-- markFailed: status FAILED, completedAt, stderr; exitCode only when given
(an undefined exitCode leaves the previous column value in Prisma). -/
def markFailed (j : CompileJob) (stderr : String) (exitCode : Option Int)
    (now : Int) : CompileJob :=
  { j with
    status := JobStatus.failed
    completedAt := some now
    stderr := some stderr
    exitCode := match exitCode with
      | some e => some e
      | none => j.exitCode }

/-- markTimeout: status TIMEOUT, completedAt, the fixed stderr text and the
standard timeout exit code 124, all in one update. -/
def markTimeout (j : CompileJob) (now : Int) : CompileJob :=
  { j with
    status := JobStatus.timeout
    completedAt := some now
    stderr := some "Execution timed out"
    exitCode := some 124 }

/-- cancel: status CANCELLED, completedAt. Unconditional update. -/
def cancel (j : CompileJob) (now : Int) : CompileJob :=
  { j with status := JobStatus.cancelled, completedAt := some now }

/-- The deleteMany filter of deleteOldJobs: completedAt earlier than the
cutoff and status in [COMPLETED, FAILED, TIMEOUT]. CANCELLED is not listed. -/
def deleteFilter (j : CompileJob) (cutoff : Int) : Bool :=
  (match j.completedAt with
    | some c => decide (c < cutoff)
    | none => false)
  && (j.status == JobStatus.completed || j.status == JobStatus.failed ||
      j.status == JobStatus.timeout)

/-- deleteOldJobs: remove rows matching `deleteFilter` with cutoff
now - daysOld days; returns the surviving rows. -/
def deleteOldJobs (jobs : List CompileJob) (now : Int) (daysOld : Nat) :
    List CompileJob :=
  let cutoff := now - (daysOld : Int) * 24 * 60 * 60 * 1000
  jobs.filter (fun j => !(deleteFilter j cutoff))

/-- Insertion step for ordering rows by createdAt descending (the
orderBy createdAt desc of findByUser). -/
def insertByCreatedDesc (j : CompileJob) :
    List CompileJob → List CompileJob
  | [] => [j]
  | a :: t =>
    if a.createdAt ≤ j.createdAt then j :: a :: t
    else a :: insertByCreatedDesc j t

/-- Sort rows by createdAt, newest first (orderBy createdAt desc). -/
def sortByCreatedDesc (l : List CompileJob) : List CompileJob :=
  l.foldr insertByCreatedDesc []

/-- findByUser: the user's rows, newest first, limited (take). -/
def findByUser (jobs : List CompileJob) (userId : String) (limit : Nat) :
    List CompileJob :=
  (sortByCreatedDesc (jobs.filter (fun j => j.userId == userId))).take limit

end CompileJobRepository

/-- The caller-supplied portion of the options (Partial CompileOptions). -/
structure CompileOptionsInput where
  flags : Option (List String)
  timeout : Option Nat
  memoryLimit : Option String
  cpuLimit : Option String
  deriving DecidableEq, Repr

/-- Result record of a sandbox run (ExecutionResult in docker-service.ts). -/
structure ExecutionResult where
  success : Bool
  stdout : String
  stderr : String
  exitCode : Int
  executionTime : Nat
  memoryUsed : Option Nat
  timedOut : Bool
  error : Option String
  deriving DecidableEq, Repr

/-- One entry of the Bull waiting list. queueJob's JobOptions carry no jobId
field, so Bull assigns an auto-increment integer id of its own; the entry
holds that Bull id alongside the service jobId stored in the CompileJobData
payload. -/
structure QueueEntry where
  bullId : Nat
  jobId : String
  deriving DecidableEq, Repr

/-- System state seen by the ExecutionService: the compile_jobs table plus
the Bull queue, modelled by its ordered waiting list of entries and the
number of jobs a worker currently holds active. -/
structure SysState where
  jobs : List CompileJob
  waiting : List QueueEntry
  active : Nat
  deriving DecidableEq, Repr

/-- Status view returned by getJobStatus. -/
structure JobStatusView where
  status : JobStatus
  result : Option ExecutionResult
  position : Option Nat
  deriving DecidableEq, Repr

namespace ExecutionService

/-- RATE_LIMIT.MAX_JOBS_PER_USER_PER_MINUTE. -/
def maxJobsPerUserPerMinute : Nat := 5

/-- RATE_LIMIT.MAX_QUEUE_SIZE. -/
def maxQueueSize : Nat := 100

/-- Error message thrown when the queue is saturated. -/
def queueFullMsg : String := "Queue is full. Please try again later."

/-- Error message thrown when the per-user rate limit is hit. -/
def rateLimitMsg : String :=
  "Rate limit exceeded. Please wait before submitting another job."

/-- JavaScript truthiness merge for an optional list (options.flags || d):
an absent value falls back to the default; an empty array is truthy. -/
def jsOrList (v : Option (List String)) (d : List String) : List String :=
  match v with
  | some l => l
  | none => d

/-- JavaScript truthiness merge for an optional number (options.timeout || d):
absent or zero falls back to the default. -/
def jsOrNat (v : Option Nat) (d : Nat) : Nat :=
  match v with
  | some n => if n = 0 then d else n
  | none => d

/-- JavaScript truthiness merge for an optional string: absent or empty falls
back to the default. -/
def jsOrStr (v : Option String) (d : String) : String :=
  match v with
  | some s => if s = "" then d else s
  | none => d

/-- Effective options built in queueJob: caller values merged with the
defaults from config.compilation (env defaults 30000 ms, "128m", "0.5"). -/
def mergeOptions (opts : CompileOptionsInput) : CompileOptions :=
  { flags := jsOrList opts.flags ["-std=c++17", "-Wall", "-Wextra"]
    timeout := jsOrNat opts.timeout 30000
    memoryLimit := jsOrStr opts.memoryLimit "128m"
    cpuLimit := jsOrStr opts.cpuLimit "0.5" }

/-- The fresh row persisted by queueJob (CompileJobRepository.create call). -/
def mkQueuedJob (roomId userId code : String) (opts : CompileOptionsInput)
    (newId : String) (now : Int) : CompileJob :=
  { id := newId
    roomId := roomId
    userId := userId
    code := code
    options := mergeOptions opts
    status := JobStatus.queued
    createdAt := now
    startedAt := none
    completedAt := none
    stdout := none
    stderr := none
    exitCode := none
    executionTime := none
    memoryUsed := none }

/-- checkRateLimits: first the global saturation check on
waiting + active, then the per-user count of rows created in the last
60 000 ms among the user's newest 50 rows. Returns the thrown message. -/
def checkRateLimits (s : SysState) (userId : String) (now : Int) :
    Option String :=
  if maxQueueSize ≤ s.waiting.length + s.active then
    some queueFullMsg
  else
    let oneMinuteAgo := now - 60 * 1000
    let recentJobs := CompileJobRepository.findByUser s.jobs userId 50
    let recentJobsCount :=
      (recentJobs.filter (fun j => decide (oneMinuteAgo < j.createdAt))).length
    if maxJobsPerUserPerMinute ≤ recentJobsCount then
      some rateLimitMsg
    else
      none

/-- queueJob: admission checks, then persist the job in QUEUED and append it
to the queue; compileQueue.add receives no jobId option, so the new waiting
entry is keyed by the Bull auto-increment id supplied here, with the service
jobId only inside the payload. Returns the new job id. -/
def queueJob (s : SysState) (roomId userId code : String)
    (opts : CompileOptionsInput) (newId : String) (bullId : Nat) (now : Int) :
    Except String (SysState × String) :=
  match checkRateLimits s userId now with
  | some msg => Except.error msg
  | none =>
    let newJob := mkQueuedJob roomId userId code opts newId now
    Except.ok
      ({ jobs := s.jobs ++ [newJob]
         waiting := s.waiting ++ [{ bullId := bullId, jobId := newId }]
         active := s.active }, newId)

/-- compileQueue.getJob: Bull fetches a job by its own id, so the requested
string is compared against the auto-assigned integer ids of the entries; a
service UUID never matches one. -/
def getJob (waiting : List QueueEntry) (id : String) : Option QueueEntry :=
  waiting.find? (fun e => toString e.bullId == id)

/-- Result assembled by getJobStatus for a terminal row (lines 140-148 of
part_006); `dbJob.memoryUsed || undefined` maps a stored 0 to undefined. -/
def resultFromDb (j : CompileJob) : ExecutionResult :=
  { success := j.status == JobStatus.completed
    stdout := j.stdout.getD ""
    stderr := j.stderr.getD ""
    exitCode := j.exitCode.getD (-1)
    executionTime := j.executionTime.getD 0
    memoryUsed := match j.memoryUsed with
      | some m => if m = 0 then none else some m
      | none => none
    timedOut := j.status == JobStatus.timeout
    error := none }

/-- getJobStatus: unknown ids raise; terminal rows return the stored result;
otherwise a position is computed only when compileQueue.getJob finds the id
and the row is QUEUED — getJob compares against Bull auto ids, so a service
UUID finds nothing and position stays undefined. Inside the branch, findIndex
also compares the waiting Bull ids with the service id; a miss is JS
findIndex -1, giving position 0. -/
def getJobStatus (jobs : List CompileJob) (waiting : List QueueEntry)
    (jobId : String) : Except String JobStatusView :=
  match CompileJobRepository.findById jobs jobId with
  | none => Except.error "Job not found"
  | some dbJob =>
    if isTerminalStatus dbJob.status then
      Except.ok
        { status := dbJob.status
          result := some (resultFromDb dbJob)
          position := none }
    else
      let bullIds := waiting.map (fun e => toString e.bullId)
      let position :=
        if (getJob waiting jobId).isSome &&
            dbJob.status == JobStatus.queued then
          some (if bullIds.contains jobId then bullIds.indexOf jobId + 1
            else 0)
        else none
      Except.ok { status := dbJob.status, result := none, position := position }

/-- cancelJob: refuse on unknown id, foreign user, or a state outside
QUEUED/RUNNING. For a QUEUED job it calls compileQueue.getJob(jobId) and, only
if that finds a queue job, removes it — since entries live under Bull auto ids
the service UUID finds nothing and the entry stays. The store row is set to
CANCELLED either way and true is returned. -/
def cancelJob (s : SysState) (jobId userId : String) (now : Int) :
    SysState × Bool :=
  match CompileJobRepository.findById s.jobs jobId with
  | none => (s, false)
  | some dbJob =>
    if dbJob.userId ≠ userId then (s, false)
    else if ¬(dbJob.status = JobStatus.queued ∨
              dbJob.status = JobStatus.running) then (s, false)
    else
      let waiting2 :=
        if dbJob.status = JobStatus.queued then
          match getJob s.waiting jobId with
          | some qj => s.waiting.filter (fun e => e.bullId ≠ qj.bullId)
          | none => s.waiting
        else s.waiting
      let jobs2 := CompileJobRepository.updateById s.jobs jobId
        (fun j => CompileJobRepository.cancel j now)
      ({ jobs := jobs2, waiting := waiting2, active := s.active }, true)

/-- Stderr fallback chain of the markFailed call in processCompileJob:
result.stderr || result.error || a fixed text. -/
def failedStderr (res : ExecutionResult) : String :=
  if res.stderr ≠ "" then res.stderr
  else match res.error with
    | some e => if e ≠ "" then e else "Unknown error"
    | none => "Unknown error"

/-- processCompileJob, store writes only: markStarted, then depending on the
sandbox result markTimeout, markCompleted or markFailed. Every write is an
unconditional id-targeted update. -/
def processCompileJob (jobs : List CompileJob) (jobId : String)
    (res : ExecutionResult) (nowStart nowEnd : Int) : List CompileJob :=
  let s1 := CompileJobRepository.updateById jobs jobId
    (fun j => CompileJobRepository.markStarted j nowStart)
  if res.timedOut then
    CompileJobRepository.updateById s1 jobId
      (fun j => CompileJobRepository.markTimeout j nowEnd)
  else if res.success then
    CompileJobRepository.updateById s1 jobId
      (fun j => CompileJobRepository.markCompleted j res.stdout res.stderr
        res.exitCode res.executionTime res.memoryUsed nowEnd)
  else
    CompileJobRepository.updateById s1 jobId
      (fun j => CompileJobRepository.markFailed j (failedStderr res)
        (some res.exitCode) nowEnd)

/-- cleanup: the database half, deleting Job Store rows older than 7 days
via CompileJobRepository.deleteOldJobs (the Bull bucket purge holds no
modelled state). -/
def cleanup (s : SysState) (now : Int) : SysState :=
  { s with jobs := CompileJobRepository.deleteOldJobs s.jobs now 7 }

end ExecutionService

/-- One repository write applied to a single job row: the five lifecycle
updates the source performs after creation. -/
inductive JobOp where
  | opStarted (now : Int)
  | opCompleted (stdout stderr : String) (exitCode : Int)
      (executionTime : Nat) (memoryUsed : Option Nat) (now : Int)
  | opFailed (stderr : String) (exitCode : Option Int) (now : Int)
  | opTimedOut (now : Int)
  | opCancelled (now : Int)
  deriving DecidableEq, Repr

/-- Apply one lifecycle write to a row. -/
def applyOp (j : CompileJob) : JobOp → CompileJob
  | JobOp.opStarted now => CompileJobRepository.markStarted j now
  | JobOp.opCompleted o e c t m now =>
      CompileJobRepository.markCompleted j o e c t m now
  | JobOp.opFailed e c now => CompileJobRepository.markFailed j e c now
  | JobOp.opTimedOut now => CompileJobRepository.markTimeout j now
  | JobOp.opCancelled now => CompileJobRepository.cancel j now

/-- A row after a sequence of lifecycle writes. -/
def applyOps (j : CompileJob) (ops : List JobOp) : CompileJob :=
  ops.foldl applyOp j

namespace DockerService

/-- JavaScript String.prototype.trim: drop whitespace from both ends. -/
def trimEnds (s : String) : String :=
  String.mk
    (((s.toList.dropWhile Char.isWhitespace).reverse.dropWhile
      Char.isWhitespace).reverse)

/-- Abstract behaviour of a submitted program inside the container: how the
compile step exits and how long it takes, then how long the produced binary
would run and with which exit code, plus the close code of the `docker run`
process when the watchdog force-kills the container. -/
structure ProgramBehavior where
  compileExit : Int
  compileMs : Nat
  runExit : Int
  runMs : Nat
  stdoutText : String
  stderrText : String
  killCloseCode : Int
  deriving DecidableEq, Repr

/-- The hardcoded `timeout 5s ./main` in the single shell command of
runContainer (line 140 of docker-service.ts), in milliseconds. -/
def innerTimeMs : Nat := 5000

/-- Exit code and elapsed time of the shell command
`cp main.cpp && g++ ... && timeout 5s ./main`: a failing compile short-circuits
with the compiler's exit code; a binary running 5 s or longer is killed by the
interposed `timeout` with exit code 124; otherwise the binary's own exit code
is returned. -/
def shellOutcome (p : ProgramBehavior) : Int × Nat :=
  if p.compileExit ≠ 0 then (p.compileExit, p.compileMs)
  else if innerTimeMs ≤ p.runMs then (124, p.compileMs + innerTimeMs)
  else (p.runExit, p.compileMs + p.runMs)

/-- JavaScript `code || -1` on the close code: 0 (and null, not modelled
separately) is falsy and becomes -1. -/
def jsCodeOrNeg (c : Int) : Int :=
  if c = 0 then -1 else c

/-- Outcome of runContainer without the executionTime stamped by the caller. -/
structure RunOutcome where
  success : Bool
  stdoutText : String
  stderrText : String
  exitCode : Int
  timedOut : Bool
  deriving DecidableEq, Repr

/-- runContainer: a watchdog timer set to timeoutMs force-kills the container;
if the shell command closes strictly before the timer fires, the close handler
reports `success = (code === 0 && !timedOut)`, trimmed streams and
`code || -1`; when the timer fired first, timedOut is true and the close code
is the kill-induced one. -/
def runContainer (timeoutMs : Nat) (p : ProgramBehavior) : RunOutcome :=
  let c := (shellOutcome p).1
  let closeAt := (shellOutcome p).2
  if timeoutMs ≤ closeAt then
    { success := false
      stdoutText := trimEnds p.stdoutText
      stderrText := trimEnds p.stderrText
      exitCode := jsCodeOrNeg p.killCloseCode
      timedOut := true }
  else
    { success := c == 0
      stdoutText := trimEnds p.stdoutText
      stderrText := trimEnds p.stderrText
      exitCode := jsCodeOrNeg c
      timedOut := false }

end DockerService

/-- One row of the participants table. -/
structure Participant where
  roomId : String
  userId : String
  isActive : Bool
  userColor : String
  lastSeen : Int
  deriving DecidableEq, Repr

/-- One row of the rooms table (fields the claims touch). -/
structure Room where
  id : String
  key : String
  isArchived : Bool
  participantCount : Int
  codeSnapshot : Option String
  lastActivity : Int
  deriving DecidableEq, Repr

/-- Persistent state of the collaboration side: rooms and participants. -/
structure RoomState where
  rooms : List Room
  participants : List Participant
  deriving DecidableEq, Repr

namespace ParticipantRepository

/-- The fixed palette of 10 hex colors in generateUserColor. -/
def colors : List String :=
  ["#3B82F6", "#EF4444", "#10B981", "#F59E0B", "#8B5CF6",
   "#F97316", "#06B6D4", "#84CC16", "#EC4899", "#6B7280"]

/-- generateUserColor: colors[Math.floor(Math.random() * colors.length)].
The random draw is the explicit index argument; the result depends on nothing
else. -/
def generateUserColor (randIndex : Fin 10) : String :=
  colors.getD randIndex.val ""

/-- findFirst by (roomId, userId). -/
def findByRoomAndUser (ps : List Participant) (roomId userId : String) :
    Option Participant :=
  ps.find? (fun p => p.roomId == roomId && p.userId == userId)

/-- The row created by markActive when none exists. -/
def newParticipant (roomId userId color : String) (now : Int) : Participant :=
  { roomId := roomId
    userId := userId
    isActive := true
    userColor := color
    lastSeen := now }

/-- markActive: update the existing (roomId, userId) row to active, else
create a fresh active row with a freshly drawn color. -/
def markActive (ps : List Participant) (roomId userId : String)
    (randIndex : Fin 10) (now : Int) : List Participant :=
  match findByRoomAndUser ps roomId userId with
  | some _ =>
    ps.map (fun p =>
      if p.roomId == roomId && p.userId == userId then
        { p with isActive := true, lastSeen := now }
      else p)
  | none =>
    ps ++ [newParticipant roomId userId (generateUserColor randIndex) now]

end ParticipantRepository

namespace RoomRepository

/-- findUnique by key. -/
def findByKey (rooms : List Room) (key : String) : Option Room :=
  rooms.find? (fun r => r.key == key)

/-- findUnique by id. -/
def findById (rooms : List Room) (id : String) : Option Room :=
  rooms.find? (fun r => r.id == id)

/-- Atomic increment of participantCount (also bumps lastActivity). -/
def incrementParticipantCount (rooms : List Room) (id : String) (now : Int) :
    List Room :=
  rooms.map (fun r =>
    if r.id == id then
      { r with participantCount := r.participantCount + 1, lastActivity := now }
    else r)

end RoomRepository

/-- The RoomData record returned by RoomService.joinRoom. -/
structure RoomData where
  roomId : String
  roomKey : String
  participants : List Participant
  codeContent : String
  lastActivity : Int
  participantCount : Int
  deriving DecidableEq, Repr

namespace RoomService

/-- Count of a room's participants with isActive = true. -/
def activeCount (ps : List Participant) (roomId : String) : Nat :=
  (ps.filter (fun p => p.roomId == roomId && p.isActive)).length

/-- joinRoom: find the room by key, refuse archived rooms, markActive the
participant, and only then look the participant up to decide whether to
increment participantCount — the lookup runs after the upsert, as in the
source. Returns the new state and the RoomData built from the re-read room. -/
def joinRoom (s : RoomState) (roomKey userId : String) (randIndex : Fin 10)
    (now : Int) : Except String (RoomState × RoomData) :=
  match RoomRepository.findByKey s.rooms roomKey with
  | none => Except.error "Room not found"
  | some room =>
    if room.isArchived then
      Except.error "Room is archived and no longer available"
    else
      let ps1 := ParticipantRepository.markActive s.participants room.id
        userId randIndex now
      let existing := ParticipantRepository.findByRoomAndUser ps1 room.id
        userId
      let rooms1 :=
        match existing with
        | none => RoomRepository.incrementParticipantCount s.rooms room.id now
        | some _ => s.rooms
      match RoomRepository.findById rooms1 room.id with
      | none => Except.error "Failed to retrieve updated room data"
      | some updatedRoom =>
        Except.ok
          ({ rooms := rooms1, participants := ps1 },
           { roomId := updatedRoom.id
             roomKey := updatedRoom.key
             participants :=
               ps1.filter (fun p => p.roomId == room.id && p.isActive)
             codeContent := updatedRoom.codeSnapshot.getD ""
             lastActivity := updatedRoom.lastActivity
             participantCount := updatedRoom.participantCount })

end RoomService

/-- Modelled from the spec: the opaque CRDT library (yjs) behind
sync-service.ts is external code; spec section 4.7 fixes its contract.
A document item is one inserted character, identified by (author, clock);
clocks per author are contiguous from 0. -/
structure YItem where
  author : Nat
  clock : Nat
  ch : Char
  deriving DecidableEq, Repr

/-- Modelled from the spec: a document is its items in document order. -/
abbrev YDoc := List YItem

namespace Yjs

/-- Modelled from the spec: the "code" text of a document. -/
def getText (d : YDoc) : String :=
  String.mk (d.map (fun it => it.ch))

/-- Modelled from the spec: the state vector entry for one author — the
number of that author's operations the document has observed (one past the
highest clock). -/
def stateVectorClock (d : YDoc) (a : Nat) : Nat :=
  d.foldr (fun it acc => if it.author = a then max acc (it.clock + 1) else acc) 0

/-- Modelled from the spec: Y.encodeStateAsUpdate(doc, targetStateVector)
yields the minimal delta the target needs — exactly the items whose clock the
target state vector has not yet observed. -/
def encodeStateAsUpdate (d : YDoc) (sv : Nat → Nat) : List YItem :=
  d.filter (fun it => decide (sv it.author ≤ it.clock))

/-- Modelled from the spec: whether the document already holds the item with
the given id (update application is idempotent). -/
def hasItem (d : YDoc) (a c : Nat) : Bool :=
  d.any (fun it => it.author == a && it.clock == c)

/-- Modelled from the spec: Y.applyUpdate integrates the update's items in
order, skipping items already observed. -/
def applyUpdate (d : YDoc) (upd : List YItem) : YDoc :=
  upd.foldl
    (fun acc it => if hasItem acc it.author it.clock then acc else acc ++ [it])
    d

end Yjs

/-- Result record of validateDocumentIntegrity. -/
structure DocumentIntegrityResult where
  isValid : Bool
  errors : List String
  warnings : List String
  deriving DecidableEq, Repr

namespace SyncService

/-- validateDocumentIntegrity (sync-service.ts lines 451-497): encode the
document against its own freshly read state vector, apply that update to a
brand-new document, and compare the "code" texts; a mismatch is a fatal
error. Size and snapshot-divergence checks only append warnings; the latest
snapshot content read from the store is passed in. The modelled update size
is its item count standing in for the encoded byte length. -/
def validateDocumentIntegrity (d : YDoc)
    (latestSnapshotContent : Option String) : DocumentIntegrityResult :=
  let sv := Yjs.stateVectorClock d
  let update := Yjs.encodeStateAsUpdate d sv
  let testDoc := Yjs.applyUpdate [] update
  let originalContent := Yjs.getText d
  let testContent := Yjs.getText testDoc
  let mismatch := originalContent != testContent
  let errors :=
    if mismatch then ["Document content mismatch after encoding/decoding"]
    else []
  let sizeWarnings :=
    if 1024 * 1024 < update.length then
      ["Document size is large, consider creating a snapshot"]
    else []
  let snapshotWarnings :=
    match latestSnapshotContent with
    | some c =>
      if 10000 < (originalContent.length : Int) - (c.length : Int) ∨
         10000 < (c.length : Int) - (originalContent.length : Int) then
        ["Large content difference from latest snapshot detected"]
      else []
    | none => []
  { isValid := !mismatch
    errors := errors
    warnings := sizeWarnings ++ snapshotWarnings }

end SyncService

/-- Caller-facing options object of the POST /compile zod schema. -/
structure RouteOptionsInput where
  flags : Option (List String)
  timeout : Option Nat
  memoryLimit : Option String
  cpuLimit : Option String
  deriving DecidableEq, Repr

/-- Body of a POST /compile request. -/
structure CompileRequest where
  roomId : String
  userId : String
  code : String
  options : Option RouteOptionsInput
  deriving DecidableEq, Repr

/-- Hexadecimal digit test for the uuid shape. -/
def isHexDigit (c : Char) : Bool :=
  c.isDigit || ('a' ≤ c && c ≤ 'f') || ('A' ≤ c && c ≤ 'F')

/-- Shape accepted by z.string().uuid(): 36 characters, hyphens at positions
8, 13, 18 and 23, hexadecimal digits elsewhere. -/
def isUuid (s : String) : Bool :=
  s.length == 36 &&
  s.toList.enum.all (fun p =>
    if p.1 = 8 ∨ p.1 = 13 ∨ p.1 = 18 ∨ p.1 = 23 then p.2 == '-'
    else isHexDigit p.2)

/-- Validity of the optional options object: only timeout carries bounds
(z.number().min(1000).max(60000)); the remaining fields are free-form. -/
def optionsValid (o : Option RouteOptionsInput) : Bool :=
  match o with
  | none => true
  | some oi =>
    match oi.timeout with
    | none => true
    | some t => decide (1000 ≤ t) && decide (t ≤ 60000)

/-- compileRequestSchema.parse as a predicate: roomId must be a uuid, userId
and code must be non-empty (z.string().min(1)), and the options, when
present, must be valid. The schema places no upper bound on code. -/
def validateCompileRequest (r : CompileRequest) : Bool :=
  isUuid r.roomId &&
  decide (1 ≤ r.userId.length) &&
  decide (1 ≤ r.code.length) &&
  optionsValid r.options

/-- Responses of the POST /compile handler, by status code. -/
inductive PostResponse where
  | accepted (jobId : String)
  | badRequest
  | rateLimited
  | queueFull
  | serverError
  deriving DecidableEq, Repr

/-- Options forwarded from the route body into queueJob. -/
def toOptionsInput (o : Option RouteOptionsInput) : CompileOptionsInput :=
  match o with
  | none =>
    { flags := none, timeout := none, memoryLimit := none, cpuLimit := none }
  | some oi =>
    { flags := oi.flags
      timeout := oi.timeout
      memoryLimit := oi.memoryLimit
      cpuLimit := oi.cpuLimit }

/-- POST /compile: schema failure is a 400 with no job side effect; otherwise
queueJob runs and its thrown messages map to 429 / 503, other failures to
500, success to a 202 with the job id. -/
def postCompile (s : SysState) (r : CompileRequest) (newId : String)
    (bullId : Nat) (now : Int) : PostResponse × SysState :=
  if !validateCompileRequest r then
    (PostResponse.badRequest, s)
  else
    match ExecutionService.queueJob s r.roomId r.userId r.code
      (toOptionsInput r.options) newId bullId now with
    | Except.ok (s2, jobId) => (PostResponse.accepted jobId, s2)
    | Except.error msg =>
      if msg = ExecutionService.rateLimitMsg then (PostResponse.rateLimited, s)
      else if msg = ExecutionService.queueFullMsg then
        (PostResponse.queueFull, s)
      else (PostResponse.serverError, s)

/-
  Verification-side definitions: the spec's notions used to state properties,
  the ordering relation for the sort proofs, and concrete fixtures for
  counterexamples and witnesses.
-/

/-- The spec's rolling-window count: the number of the user's persisted rows
created within the last 60 seconds, with no newest-50 truncation. -/
def userWindowCount (jobs : List CompileJob) (userId : String) (now : Int) :
    Nat :=
  ((jobs.filter (fun j => j.userId == userId)).filter
    (fun j => decide (now - 60 * 1000 < j.createdAt))).length

/-- Newest-first ordering on rows by creation time. -/
def createdGe (a b : CompileJob) : Prop :=
  b.createdAt ≤ a.createdAt

instance : DecidableRel createdGe := fun a b =>
  inferInstanceAs (Decidable (b.createdAt ≤ a.createdAt))

/-- Invariant that a row showing TIMEOUT carries the markTimeout columns. -/
def timeoutFieldsInv (j : CompileJob) : Prop :=
  j.status = JobStatus.timeout →
    j.exitCode = some 124 ∧ j.stderr = some "Execution timed out"

/-- Effective options when the caller supplies nothing. -/
def defaultOptions : CompileOptions :=
  ExecutionService.mergeOptions
    { flags := none, timeout := none, memoryLimit := none, cpuLimit := none }

/-- An empty caller options record. -/
def optsNone : CompileOptionsInput :=
  { flags := none, timeout := none, memoryLimit := none, cpuLimit := none }

/-- A freshly queued row owned by alice. -/
def queuedJob : CompileJob :=
  { id := "j1"
    roomId := "r1"
    userId := "alice"
    code := "int main();"
    options := defaultOptions
    status := JobStatus.queued
    createdAt := 0
    startedAt := none
    completedAt := none
    stdout := none
    stderr := none
    exitCode := none
    executionTime := none
    memoryUsed := none }

/-- The same row after a cancel write: a terminal CANCELLED row. -/
def cancelledJob : CompileJob :=
  { queuedJob with status := JobStatus.cancelled, completedAt := some 10 }

/-- A successful sandbox result as a worker would observe it. -/
def okResult : ExecutionResult :=
  { success := true
    stdout := "Hello"
    stderr := ""
    exitCode := 0
    executionTime := 42
    memoryUsed := none
    timedOut := false
    error := none }

/-- A program that compiles in 100 ms, would run for 6 s and exit with 0. -/
def slowProgram : DockerService.ProgramBehavior :=
  { compileExit := 0
    compileMs := 100
    runExit := 0
    runMs := 6000
    stdoutText := ""
    stderrText := ""
    killCloseCode := 137 }

/-- A CANCELLED row whose completedAt is far in the past. -/
def oldCancelledJob : CompileJob :=
  { queuedJob with status := JobStatus.cancelled, completedAt := some 0 }

/-- System state holding only the old cancelled row. -/
def oldCancelledSys : SysState :=
  { jobs := [oldCancelledJob], waiting := [], active := 0 }

/-- System state holding only the terminal cancelled row. -/
def cancelledSys : SysState :=
  { jobs := [cancelledJob], waiting := [], active := 0 }

/-- The queued row under a service UUID id, as randomUUID would assign. -/
def uuidJob : CompileJob :=
  { queuedJob with id := "123e4567-e89b-12d3-a456-426614174000" }

/-- System state where the uuid job waits in the queue: Bull stored the entry
under its auto id 1, with the service id only in the payload. -/
def uuidQueuedSys : SysState :=
  { jobs := [uuidJob]
    waiting := [{ bullId := 1
                  jobId := "123e4567-e89b-12d3-a456-426614174000" }]
    active := 0 }

/-- The empty system state. -/
def emptySys : SysState :=
  { jobs := [], waiting := [], active := 0 }

/-- A two-character document: author 0 inserted 'h' then 'i'. -/
def docHi : YDoc :=
  [{ author := 0, clock := 0, ch := 'h' },
   { author := 0, clock := 1, ch := 'i' }]

/-- A source text one byte above the 100 KB bound named by the spec. -/
def bigCode : String :=
  String.mk (List.replicate 102401 'a')

/-- A POST /compile body carrying the oversized source. -/
def bigRequest : CompileRequest :=
  { roomId := "123e4567-e89b-12d3-a456-426614174000"
    userId := "u"
    code := bigCode
    options := none }

/-- A fresh room with no participants yet. -/
def freshRoom : Room :=
  { id := "r1"
    key := "ABCD1234WXYZ"
    isArchived := false
    participantCount := 0
    codeSnapshot := some ""
    lastActivity := 0 }

/-- Collaboration state holding only the fresh room. -/
def joinState : RoomState :=
  { rooms := [freshRoom], participants := [] }

/-
  Theorems.
-/

/-- Claim C1, counterexample: a job already in the terminal state CANCELLED is
overwritten to COMPLETED by the worker's result write, so a terminal state is
not write-once. -/
theorem claim_c1_counterexample :
    isTerminalStatus cancelledJob.status = true ∧
    (ExecutionService.processCompileJob [cancelledJob] "j1" okResult 7 8).map
        (fun j => j.status) = [JobStatus.completed] ∧
    JobStatus.completed ≠ JobStatus.cancelled :=
  ⟨rfl, rfl, by decide⟩

/-- Claim C3, evaluation at the failing input: with wallTimeoutMs = 30000, a
program that compiles in 100 ms and would finish on its own after 6 s with
exit code 0 is instead killed by the hardcoded inner `timeout 5s` of the
sandbox command; the result reports exitCode 124 with timedOut = false, so
execution is not bounded by wallTimeoutMs alone and the program's own exit
code is not surfaced. -/
theorem claim_c3 :
    slowProgram.compileMs + slowProgram.runMs < 30000 ∧
    slowProgram.runExit = 0 ∧
    DockerService.runContainer 30000 slowProgram =
      { success := false
        stdoutText := ""
        stderrText := ""
        exitCode := 124
        timedOut := false } ∧
    (124 : Int) ≠ slowProgram.runExit :=
  ⟨by decide, rfl, rfl, by decide⟩

/-- Claim C5, evaluation at the failing input: a brand-new user joining a
fresh room yields one participant with isActive = true, yet the returned
RoomData still reports participantCount = 0, because joinRoom looks the
participant up only after markActive has already upserted the row, so
incrementParticipantCount is never reached. -/
theorem claim_c5 :
    (RoomService.joinRoom joinState "ABCD1234WXYZ" "alice" 0 5).map
        (fun pr =>
          (pr.2.participantCount, RoomService.activeCount pr.1.participants "r1")) =
      Except.ok (0, 1) ∧
    (0 : Int) ≠ ((1 : Nat) : Int) :=
  ⟨rfl, by decide⟩

/-- Claim C6, evaluation at the failing input: validateDocumentIntegrity
encodes the document against its own state vector, which is the empty delta,
so the fresh test document decodes to an empty text; for the two-character
document with "code" text "hi" the check reports the fatal content-mismatch
error instead of succeeding. -/
theorem claim_c6 :
    Yjs.getText docHi = "hi" ∧
    SyncService.validateDocumentIntegrity docHi none =
      { isValid := false
        errors := ["Document content mismatch after encoding/decoding"]
        warnings := [] } :=
  ⟨rfl, rfl⟩

/-- Claim C7, counterexample: a CANCELLED row whose completedAt lies far more
than 7 days in the past survives the periodic cleanup, because deleteOldJobs
filters on status in [COMPLETED, FAILED, TIMEOUT] only. -/
theorem claim_c7_counterexample :
    isTerminalStatus oldCancelledJob.status = true ∧
    oldCancelledJob.completedAt = some 0 ∧
    (0 : Int) < 1000000000000 - 7 * 24 * 60 * 60 * 1000 ∧
    (ExecutionService.cleanup oldCancelledSys 1000000000000).jobs =
      [oldCancelledJob] :=
  ⟨rfl, rfl, by decide, rfl⟩

/-- Claim C9, counterexample: two runs that create a participant row for the
same (roomId, userId) but draw different random indices assign different
colors, so the color choice is not determined by (roomId, userId). -/
theorem claim_c9_counterexample :
    ParticipantRepository.markActive [] "r1" "alice" 0 5 =
      [ParticipantRepository.newParticipant "r1" "alice" "#3B82F6" 5] ∧
    ParticipantRepository.markActive [] "r1" "alice" 1 5 =
      [ParticipantRepository.newParticipant "r1" "alice" "#EF4444" 5] ∧
    ("#3B82F6" : String) ≠ "#EF4444" :=
  ⟨rfl, rfl, by decide⟩

/-- The deleteMany filter holds exactly on rows completed before the cutoff
whose status is COMPLETED, FAILED or TIMEOUT. -/
theorem deleteFilter_eq_true_iff (j : CompileJob) (cutoff : Int) :
    CompileJobRepository.deleteFilter j cutoff = true ↔
      (∃ c, j.completedAt = some c ∧ c < cutoff) ∧
      (j.status = JobStatus.completed ∨ j.status = JobStatus.failed ∨
       j.status = JobStatus.timeout) := by
  unfold CompileJobRepository.deleteFilter
  cases hc : j.completedAt with
  | none => simp [hc]
  | some c =>
    cases j.status <;> simp [hc]

/-- Claim C7, amended: the periodic cleanup deletes exactly the rows whose
completedAt lies more than 7 days in the past and whose state is Completed,
Failed or Timeout; Cancelled rows, rows without completedAt (in particular
Queued and Running rows) and younger rows are left unchanged. -/
theorem claim_c7_amended (s : SysState) (now : Int) (j : CompileJob) :
    j ∈ (ExecutionService.cleanup s now).jobs ↔
      j ∈ s.jobs ∧
      ¬((∃ c, j.completedAt = some c ∧ c < now - 7 * 24 * 60 * 60 * 1000) ∧
        (j.status = JobStatus.completed ∨ j.status = JobStatus.failed ∨
         j.status = JobStatus.timeout)) := by
  have hcut : ((7 : Nat) : Int) * 24 * 60 * 60 * 1000 =
      7 * 24 * 60 * 60 * 1000 := by norm_num
  show j ∈ CompileJobRepository.deleteOldJobs s.jobs now 7 ↔ _
  simp only [CompileJobRepository.deleteOldJobs, List.mem_filter]
  rw [hcut]
  constructor
  · rintro ⟨hmem, hb⟩
    refine ⟨hmem, fun hcon => ?_⟩
    rw [← deleteFilter_eq_true_iff j (now - 7 * 24 * 60 * 60 * 1000)] at hcon
    rw [hcon] at hb
    simp at hb
  · rintro ⟨hmem, hn⟩
    refine ⟨hmem, ?_⟩
    cases hdf : CompileJobRepository.deleteFilter j
        (now - 7 * 24 * 60 * 60 * 1000) with
    | false => rfl
    | true => exact absurd ((deleteFilter_eq_true_iff j
        (now - 7 * 24 * 60 * 60 * 1000)).mp hdf) hn

/-- Claim C7, amended-claim witness at a concrete input: an old COMPLETED row
is not kept by cleanup, and an old CANCELLED row is kept. -/
theorem claim_c7_witness :
    (¬((CompileJobRepository.markCompleted queuedJob "o" "" 0 1 none 0) ∈
        (ExecutionService.cleanup
          { jobs := [CompileJobRepository.markCompleted queuedJob "o" "" 0 1
              none 0], waiting := [], active := 0 } 1000000000000).jobs)) ∧
    oldCancelledJob ∈ (ExecutionService.cleanup oldCancelledSys
      1000000000000).jobs := by
  constructor
  · intro hmem
    have h := (claim_c7_amended
      { jobs := [CompileJobRepository.markCompleted queuedJob "o" "" 0 1
          none 0], waiting := [], active := 0 } 1000000000000
      (CompileJobRepository.markCompleted queuedJob "o" "" 0 1 none 0)).mp hmem
    exact h.2 ⟨⟨0, rfl, by decide⟩, Or.inl rfl⟩
  · exact (claim_c7_amended oldCancelledSys 1000000000000 oldCancelledJob).mpr
      ⟨by simp [oldCancelledSys], by
        rintro ⟨⟨c, hc, hlt⟩, hst⟩
        rcases hst with h | h | h <;> simp [oldCancelledJob, queuedJob] at h⟩

/-- Claim C8, counterexample: a request whose code field is 102 401 characters
long (one above 100 KB) passes the zod schema and is accepted with a 202; a
job is created and enqueued, so no 400 rejection happens at validation. -/
theorem claim_c8_counterexample :
    102400 < bigRequest.code.length ∧
    validateCompileRequest bigRequest = true ∧
    (postCompile emptySys bigRequest "job-1" 1 0).1 =
      PostResponse.accepted "job-1" ∧
    (postCompile emptySys bigRequest "job-1" 1 0).2.jobs ≠ [] := by
  have hlen : bigRequest.code.length = 102401 := by
    show (String.mk (List.replicate 102401 'a')).length = 102401
    show (List.replicate 102401 'a').length = 102401
    exact List.length_replicate 102401 'a'
  have hval : validateCompileRequest bigRequest = true := by
    unfold validateCompileRequest
    rw [Bool.and_eq_true, Bool.and_eq_true, Bool.and_eq_true]
    refine ⟨⟨⟨by decide, by decide⟩, ?_⟩, by decide⟩
    rw [decide_eq_true_iff, hlen]
    decide
  have hpost : postCompile emptySys bigRequest "job-1" 1 0 =
      (PostResponse.accepted "job-1",
       { jobs := [ExecutionService.mkQueuedJob bigRequest.roomId
           bigRequest.userId bigRequest.code (toOptionsInput bigRequest.options)
           "job-1" 0],
         waiting := [{ bullId := 1, jobId := "job-1" }], active := 0 }) := by
    unfold postCompile
    rw [hval]
    rfl
  refine ⟨by rw [hlen]; decide, hval, ?_, ?_⟩
  · rw [hpost]
  · rw [hpost]
    simp

/-- Claim C8, amended: the schema accepts a request exactly when roomId has
uuid shape, userId and code are non-empty and the optional timeout lies in
[1000, 60000]; it imposes no upper bound on the code length, and a request
failing the schema is answered with 400 and leaves the store untouched. -/
theorem claim_c8_amended (r : CompileRequest) (s : SysState) (newId : String)
    (bullId : Nat) (now : Int) :
    (validateCompileRequest r = true ↔
      (isUuid r.roomId = true ∧ 1 ≤ r.userId.length ∧ 1 ≤ r.code.length ∧
       optionsValid r.options = true)) ∧
    (validateCompileRequest r = false →
      postCompile s r newId bullId now = (PostResponse.badRequest, s)) := by
  constructor
  · unfold validateCompileRequest
    rw [Bool.and_eq_true, Bool.and_eq_true, Bool.and_eq_true]
    simp [and_assoc]
  · intro hfail
    unfold postCompile
    rw [hfail]
    rfl

/-- Claim C8, amended-claim witness at a concrete input: a small well-formed
request is accepted by the schema characterization, and a request with empty
code is rejected with 400 and no state change. -/
theorem claim_c8_witness :
    (isUuid "123e4567-e89b-12d3-a456-426614174000" = true ∧
     1 ≤ ("u" : String).length ∧ 1 ≤ ("x" : String).length ∧
     optionsValid none = true) ∧
    postCompile emptySys
      { roomId := "123e4567-e89b-12d3-a456-426614174000"
        userId := "u"
        code := ""
        options := none } "job-1" 1 0 = (PostResponse.badRequest, emptySys) := by
  constructor
  · exact (claim_c8_amended
      { roomId := "123e4567-e89b-12d3-a456-426614174000"
        userId := "u", code := "x", options := none }
      emptySys "job-1" 1 0).1.mp (by decide)
  · exact (claim_c8_amended
      { roomId := "123e4567-e89b-12d3-a456-426614174000"
        userId := "u", code := "", options := none }
      emptySys "job-1" 1 0).2 (by decide)

/-- Claim C9, amended: when markActive creates a participant row, the row is
appended with isActive = true and a color drawn from the fixed palette of 10
hex values by the random index; the color does not depend on (roomId, userId),
so two runs may assign different colors. -/
theorem claim_c9_amended (ps : List Participant) (roomId userId : String)
    (r : Fin 10) (now : Int)
    (h : ParticipantRepository.findByRoomAndUser ps roomId userId = none) :
    ParticipantRepository.markActive ps roomId userId r now =
      ps ++ [ParticipantRepository.newParticipant roomId userId
        (ParticipantRepository.generateUserColor r) now] ∧
    ParticipantRepository.generateUserColor r ∈
      ParticipantRepository.colors := by
  constructor
  · unfold ParticipantRepository.markActive
    rw [h]
  · revert r
    decide

/-- Claim C9, amended-claim witness at a concrete input. -/
theorem claim_c9_witness :
    ParticipantRepository.markActive [] "r1" "alice" 3 5 =
      [ParticipantRepository.newParticipant "r1" "alice"
        (ParticipantRepository.generateUserColor 3) 5] ∧
    ParticipantRepository.generateUserColor 3 ∈
      ParticipantRepository.colors :=
  claim_c9_amended [] "r1" "alice" 3 5 rfl

/-- Claim C1, amended: once a job is terminal, cancelJob refuses to act (it
returns false and leaves the state untouched), but the repository's mark
writes are unconditional, so a later worker result write or queue retry can
still overwrite the terminal state. -/
theorem claim_c1_amended (s : SysState) (jobId userId : String)
    (now now2 : Int) (dbJob j : CompileJob) (out err : String) (ec : Int)
    (ms : Nat) (mem : Option Nat)
    (hfind : CompileJobRepository.findById s.jobs jobId = some dbJob)
    (hterm : isTerminalStatus dbJob.status = true) :
    ExecutionService.cancelJob s jobId userId now = (s, false) ∧
    (CompileJobRepository.markCompleted j out err ec ms mem now2).status =
      JobStatus.completed ∧
    (CompileJobRepository.markFailed j err (some ec) now2).status =
      JobStatus.failed ∧
    (CompileJobRepository.markTimeout j now2).status = JobStatus.timeout ∧
    (CompileJobRepository.markStarted j now2).status = JobStatus.running := by
  refine ⟨?_, rfl, rfl, rfl, rfl⟩
  unfold ExecutionService.cancelJob
  rw [hfind]
  have hnotqr : ¬(dbJob.status = JobStatus.queued ∨
      dbJob.status = JobStatus.running) := by
    rintro (h | h) <;> rw [h] at hterm <;> exact absurd hterm (by decide)
  by_cases hu : dbJob.userId ≠ userId
  · simp [hu]
  · simp [hu, hnotqr]

/-- Claim C1, amended-claim witness at a concrete input: cancelling the
already-cancelled job changes nothing and returns false. -/
theorem claim_c1_witness :
    ExecutionService.cancelJob cancelledSys "j1" "alice" 99 =
      (cancelledSys, false) ∧
    (CompileJobRepository.markCompleted cancelledJob "o" "" 0 1 none
      99).status = JobStatus.completed ∧
    (CompileJobRepository.markFailed cancelledJob "" (some 0) 99).status =
      JobStatus.failed ∧
    (CompileJobRepository.markTimeout cancelledJob 99).status =
      JobStatus.timeout ∧
    (CompileJobRepository.markStarted cancelledJob 99).status =
      JobStatus.running :=
  claim_c1_amended cancelledSys "j1" "alice" 99 99 cancelledJob cancelledJob
    "o" "" 0 1 none rfl rfl

/-- An id-targeted update rewrites exactly the row findById locates, provided
the update preserves the id column. -/
theorem findById_updateById (jobs : List CompileJob) (idv : String)
    (f : CompileJob → CompileJob) (j : CompileJob)
    (hf : ∀ x, (f x).id = x.id)
    (h : CompileJobRepository.findById jobs idv = some j) :
    CompileJobRepository.findById (CompileJobRepository.updateById jobs idv f)
      idv = some (f j) := by
  induction jobs with
  | nil => simp [CompileJobRepository.findById] at h
  | cons x t ih =>
    unfold CompileJobRepository.findById CompileJobRepository.updateById
      at ih ⊢
    unfold CompileJobRepository.findById at h
    cases hx : (x.id == idv) with
    | true =>
      simp only [List.find?_cons, hx] at h
      injection h with hxj
      subst hxj
      have hpos : ((f x).id == idv) = true := by
        rw [hf x]
        exact hx
      simp only [List.map_cons, if_pos hx, List.find?_cons, hpos]
    | false =>
      simp only [List.find?_cons, hx] at h
      have hneg : ¬((x.id == idv) = true) := by
        simp [hx]
      simp only [List.map_cons, if_neg hneg, List.find?_cons, hx]
      simpa [hx] using ih h

/-- Claim C4, evaluation at the failing input: queueJob enqueued the job under
Bull auto id 1, so cancelJob's compileQueue.getJob lookup by the service UUID
finds nothing and the waiting entry survives the cancellation of the Queued
job, although Cancelled is written to the store and true is returned; the
claim says the queue entry is removed. The refusal branches behave as claimed:
a foreign userId, or the terminal row, leave the state untouched with
false. -/
theorem claim_c4 :
    ExecutionService.getJob uuidQueuedSys.waiting
      "123e4567-e89b-12d3-a456-426614174000" = none ∧
    ExecutionService.cancelJob uuidQueuedSys
        "123e4567-e89b-12d3-a456-426614174000" "alice" 9 =
      ({ jobs := [CompileJobRepository.cancel uuidJob 9]
         waiting := uuidQueuedSys.waiting
         active := 0 }, true) ∧
    (ExecutionService.cancelJob uuidQueuedSys
        "123e4567-e89b-12d3-a456-426614174000" "alice" 9).1.waiting =
      [{ bullId := 1, jobId := "123e4567-e89b-12d3-a456-426614174000" }] ∧
    ExecutionService.cancelJob uuidQueuedSys
        "123e4567-e89b-12d3-a456-426614174000" "bob" 9 =
      (uuidQueuedSys, false) ∧
    ExecutionService.cancelJob cancelledSys "j1" "alice" 9 =
      (cancelledSys, false) := by
  refine ⟨rfl, ?_, ?_, ?_, ?_⟩ <;> decide

/-- Inserting into the descending order is a permutation of consing. -/
theorem insertByCreatedDesc_perm (j : CompileJob) (l : List CompileJob) :
    List.Perm (CompileJobRepository.insertByCreatedDesc j l) (j :: l) := by
  induction l with
  | nil => exact List.Perm.refl _
  | cons a t ih =>
    unfold CompileJobRepository.insertByCreatedDesc
    by_cases h : a.createdAt ≤ j.createdAt
    · rw [if_pos h]
    · rw [if_neg h]
      exact (ih.cons a).trans (List.Perm.swap j a t)

/-- The descending sort permutes its input. -/
theorem sortByCreatedDesc_perm (l : List CompileJob) :
    List.Perm (CompileJobRepository.sortByCreatedDesc l) l := by
  induction l with
  | nil => exact List.Perm.refl _
  | cons a t ih =>
    show List.Perm (CompileJobRepository.insertByCreatedDesc a
      (CompileJobRepository.sortByCreatedDesc t)) (a :: t)
    exact (insertByCreatedDesc_perm a _).trans (ih.cons a)

/-- Inserting into a descending-sorted list keeps it sorted. -/
theorem sorted_insertByCreatedDesc (j : CompileJob) (l : List CompileJob)
    (h : List.Sorted createdGe l) :
    List.Sorted createdGe (CompileJobRepository.insertByCreatedDesc j l) := by
  induction l with
  | nil => simp [CompileJobRepository.insertByCreatedDesc]
  | cons a t ih =>
    rcases List.sorted_cons.mp h with ⟨ha, ht⟩
    unfold CompileJobRepository.insertByCreatedDesc
    by_cases hc : a.createdAt ≤ j.createdAt
    · rw [if_pos hc]
      refine List.sorted_cons.mpr ⟨?_, h⟩
      intro b hb
      rcases List.mem_cons.mp hb with hb | hb
      · rw [hb]
        exact hc
      · exact le_trans (ha b hb) hc
    · rw [if_neg hc]
      refine List.sorted_cons.mpr ⟨?_, ih ht⟩
      intro b hb
      have hb2 : b ∈ j :: t :=
        (insertByCreatedDesc_perm j t).mem_iff.mp hb
      rcases List.mem_cons.mp hb2 with hb2 | hb2
      · rw [hb2]
        exact le_of_lt (lt_of_not_ge hc)
      · exact ha b hb2

/-- The descending sort is sorted. -/
theorem sorted_sortByCreatedDesc (l : List CompileJob) :
    List.Sorted createdGe (CompileJobRepository.sortByCreatedDesc l) := by
  induction l with
  | nil => simp [CompileJobRepository.sortByCreatedDesc]
  | cons a t ih => exact sorted_insertByCreatedDesc a _ ih

/-- In a descending-sorted list the rows newer than a cutoff form a prefix,
so counting them in a take is a min. -/
theorem countP_take_sorted (cutoff : Int) :
    ∀ (M : List CompileJob) (n : Nat), List.Sorted createdGe M →
      (M.take n).countP (fun j => decide (cutoff < j.createdAt)) =
        min (M.countP (fun j => decide (cutoff < j.createdAt))) n := by
  intro M
  induction M with
  | nil => intro n _; simp
  | cons a t ih =>
    intro n hs
    rcases List.sorted_cons.mp hs with ⟨ha, ht⟩
    cases n with
    | zero => simp
    | succ m =>
      rw [List.take_succ_cons, List.countP_cons, List.countP_cons]
      by_cases hp : cutoff < a.createdAt
      · have hd : decide (cutoff < a.createdAt) = true := by simp [hp]
        rw [ih m ht, hd]
        simp
        omega
      · have hz : t.countP (fun j => decide (cutoff < j.createdAt)) = 0 := by
          rw [List.countP_eq_zero]
          intro b hb
          have hle : b.createdAt ≤ a.createdAt := ha b hb
          simp only [decide_eq_true_iff]
          omega
        have hzt : (t.take m).countP
            (fun j => decide (cutoff < j.createdAt)) = 0 := by
          rw [List.countP_eq_zero]
          intro b hb
          have hbm : b ∈ t := List.take_subset m t hb
          have hle : b.createdAt ≤ a.createdAt := ha b hbm
          simp only [decide_eq_true_iff]
          omega
        have hd : decide (cutoff < a.createdAt) = false := by simp [hp]
        rw [hd, hz, hzt]
        simp

/-- The code's rate-limit count (newest 50 rows, then the 60 s window) trips
exactly when the spec's absolute rolling-window count does. -/
theorem recentCount_iff (jobs : List CompileJob) (userId : String)
    (now : Int) :
    (5 ≤ ((CompileJobRepository.findByUser jobs userId 50).filter
        (fun j => decide (now - 60 * 1000 < j.createdAt))).length) ↔
      5 ≤ userWindowCount jobs userId now := by
  unfold CompileJobRepository.findByUser userWindowCount
  rw [← List.countP_eq_length_filter, ← List.countP_eq_length_filter]
  rw [countP_take_sorted (now - 60 * 1000) _ 50
    (sorted_sortByCreatedDesc (jobs.filter (fun j => j.userId == userId)))]
  rw [(sortByCreatedDesc_perm
    (jobs.filter (fun j => j.userId == userId))).countP_eq]
  omega

/-- Evaluation of queueJob when the queue is saturated. -/
theorem queueJob_eq_queueFull (s : SysState) (roomId userId code : String)
    (opts : CompileOptionsInput) (newId : String) (bullId : Nat) (now : Int)
    (h1 : 100 ≤ s.waiting.length + s.active) :
    ExecutionService.queueJob s roomId userId code opts newId bullId now =
      Except.error ExecutionService.queueFullMsg := by
  simp only [ExecutionService.queueJob, ExecutionService.checkRateLimits,
    ExecutionService.maxQueueSize]
  rw [if_pos h1]

/-- Evaluation of queueJob when the queue has room but the user's rolling
window already holds 5 submissions. -/
theorem queueJob_eq_rateLimited (s : SysState) (roomId userId code : String)
    (opts : CompileOptionsInput) (newId : String) (bullId : Nat) (now : Int)
    (h1 : ¬(100 ≤ s.waiting.length + s.active))
    (h2 : 5 ≤ userWindowCount s.jobs userId now) :
    ExecutionService.queueJob s roomId userId code opts newId bullId now =
      Except.error ExecutionService.rateLimitMsg := by
  have h2b := (recentCount_iff s.jobs userId now).mpr h2
  simp only [ExecutionService.queueJob, ExecutionService.checkRateLimits,
    ExecutionService.maxQueueSize, ExecutionService.maxJobsPerUserPerMinute]
  rw [if_neg h1, if_pos h2b]

/-- Evaluation of queueJob when both admission checks pass. -/
theorem queueJob_eq_ok (s : SysState) (roomId userId code : String)
    (opts : CompileOptionsInput) (newId : String) (bullId : Nat) (now : Int)
    (h1 : ¬(100 ≤ s.waiting.length + s.active))
    (h2 : ¬(5 ≤ userWindowCount s.jobs userId now)) :
    ExecutionService.queueJob s roomId userId code opts newId bullId now =
      Except.ok
        ({ jobs := s.jobs ++
             [ExecutionService.mkQueuedJob roomId userId code opts newId now]
           waiting := s.waiting ++ [{ bullId := bullId, jobId := newId }]
           active := s.active }, newId) := by
  have h2b : ¬(5 ≤ ((CompileJobRepository.findByUser s.jobs userId 50).filter
      (fun j => decide (now - 60 * 1000 < j.createdAt))).length) := by
    intro hcon
    exact h2 ((recentCount_iff s.jobs userId now).mp hcon)
  simp only [ExecutionService.queueJob, ExecutionService.checkRateLimits,
    ExecutionService.maxQueueSize, ExecutionService.maxJobsPerUserPerMinute]
  rw [if_neg h1, if_neg h2b]

/-- Claim C2: admission is checked in order — the submission is refused with
the QueueFull message exactly when waiting + active is at least 100; otherwise
it is refused with the RateLimited message exactly when the user already has
5 or more persisted submissions inside the rolling 60-second window; otherwise
the job is persisted in Queued and appended to the queue. -/
theorem claim_c2 (s : SysState) (roomId userId code : String)
    (opts : CompileOptionsInput) (newId : String) (bullId : Nat) (now : Int) :
    (ExecutionService.queueJob s roomId userId code opts newId bullId now =
        Except.error ExecutionService.queueFullMsg ↔
      100 ≤ s.waiting.length + s.active) ∧
    (ExecutionService.queueJob s roomId userId code opts newId bullId now =
        Except.error ExecutionService.rateLimitMsg ↔
      (s.waiting.length + s.active < 100 ∧
       5 ≤ userWindowCount s.jobs userId now)) ∧
    (s.waiting.length + s.active < 100 →
      userWindowCount s.jobs userId now < 5 →
      ExecutionService.queueJob s roomId userId code opts newId bullId now =
        Except.ok
          ({ jobs := s.jobs ++
               [ExecutionService.mkQueuedJob roomId userId code opts newId now]
             waiting := s.waiting ++ [{ bullId := bullId, jobId := newId }]
             active := s.active }, newId) ∧
      (ExecutionService.mkQueuedJob roomId userId code opts newId
        now).status = JobStatus.queued) := by
  have hmsg : ExecutionService.queueFullMsg ≠ ExecutionService.rateLimitMsg :=
    by decide
  refine ⟨?_, ?_, ?_⟩
  · constructor
    · intro he
      by_contra hnot
      by_cases h2 : 5 ≤ userWindowCount s.jobs userId now
      · rw [queueJob_eq_rateLimited s roomId userId code opts newId bullId now
          hnot h2] at he
        injection he with hm
        exact hmsg hm.symm
      · rw [queueJob_eq_ok s roomId userId code opts newId bullId now hnot h2] at he
        simp at he
    · exact queueJob_eq_queueFull s roomId userId code opts newId bullId now
  · constructor
    · intro he
      by_cases h1 : 100 ≤ s.waiting.length + s.active
      · rw [queueJob_eq_queueFull s roomId userId code opts newId bullId now h1]
          at he
        injection he with hm
        exact absurd hm hmsg
      · by_cases h2 : 5 ≤ userWindowCount s.jobs userId now
        · exact ⟨by omega, h2⟩
        · rw [queueJob_eq_ok s roomId userId code opts newId bullId now h1 h2]
            at he
          simp at he
    · rintro ⟨h1, h2⟩
      exact queueJob_eq_rateLimited s roomId userId code opts newId bullId
        now (by omega) h2
  · intro h1 h2
    exact ⟨queueJob_eq_ok s roomId userId code opts newId bullId now
      (by omega) (by omega), rfl⟩

/-- Claim C2, witness at a concrete input: on the empty system the submission
is admitted, persisted in Queued and enqueued. -/
theorem claim_c2_witness :
    ExecutionService.queueJob emptySys "r1" "alice" "int main();" optsNone
      "j9" 1 0 =
      Except.ok
        ({ jobs := [ExecutionService.mkQueuedJob "r1" "alice" "int main();"
             optsNone "j9" 0]
           waiting := [{ bullId := 1, jobId := "j9" }]
           active := 0 }, "j9") ∧
    (ExecutionService.mkQueuedJob "r1" "alice" "int main();" optsNone "j9"
      0).status = JobStatus.queued :=
  (claim_c2 emptySys "r1" "alice" "int main();" optsNone "j9" 1 0).2.2
    (by decide) (by decide)

/-- Every lifecycle write leaves the row satisfying the timeout-field
invariant, since only markTimeout produces the TIMEOUT status and it sets
exitCode 124 and the fixed stderr in the same update. -/
theorem applyOp_timeoutFieldsInv (j : CompileJob) (op : JobOp) :
    timeoutFieldsInv (applyOp j op) := by
  cases op <;> intro hst <;>
    simp [applyOp, CompileJobRepository.markStarted,
      CompileJobRepository.markCompleted, CompileJobRepository.markFailed,
      CompileJobRepository.markTimeout, CompileJobRepository.cancel,
      timeoutFieldsInv] at hst ⊢

/-- The timeout-field invariant holds after any sequence of lifecycle
writes. -/
theorem applyOps_timeoutFieldsInv (j : CompileJob) (ops : List JobOp)
    (h : timeoutFieldsInv j) : timeoutFieldsInv (applyOps j ops) := by
  induction ops generalizing j with
  | nil => exact h
  | cons op t ih => exact ih (applyOp j op) (applyOp_timeoutFieldsInv j op)

/-- Claim C10: markTimeout writes state Timeout, completedAt, the exact
stderr text and exitCode 124 in one update; consequently any job created in
Queued that a sequence of lifecycle writes has brought to Timeout is reported
by getJobStatus with a result carrying success = false, timedOut = true,
exitCode = 124 and that stderr. -/
theorem claim_c10 (j0 : CompileJob) (ops : List JobOp) (now : Int)
    (waiting : List QueueEntry)
    (h0 : j0.status = JobStatus.queued)
    (ht : (applyOps j0 ops).status = JobStatus.timeout) :
    CompileJobRepository.markTimeout (applyOps j0 ops) now =
      { applyOps j0 ops with
        status := JobStatus.timeout
        completedAt := some now
        stderr := some "Execution timed out"
        exitCode := some 124 } ∧
    ExecutionService.getJobStatus [applyOps j0 ops] waiting
        (applyOps j0 ops).id =
      Except.ok
        { status := JobStatus.timeout
          result := some (ExecutionService.resultFromDb (applyOps j0 ops))
          position := none } ∧
    (ExecutionService.resultFromDb (applyOps j0 ops)).success = false ∧
    (ExecutionService.resultFromDb (applyOps j0 ops)).timedOut = true ∧
    (ExecutionService.resultFromDb (applyOps j0 ops)).exitCode = 124 ∧
    (ExecutionService.resultFromDb (applyOps j0 ops)).stderr =
      "Execution timed out" := by
  have hinv0 : timeoutFieldsInv j0 := by
    intro hst
    rw [h0] at hst
    exact absurd hst (by decide)
  have hinv := applyOps_timeoutFieldsInv j0 ops hinv0
  rcases hinv ht with ⟨hec, hse⟩
  have hfind : CompileJobRepository.findById [applyOps j0 ops]
      (applyOps j0 ops).id = some (applyOps j0 ops) := by
    simp [CompileJobRepository.findById]
  refine ⟨rfl, ?_, ?_, ?_, ?_, ?_⟩
  · unfold ExecutionService.getJobStatus
    rw [hfind]
    have hterm : isTerminalStatus (applyOps j0 ops).status = true := by
      rw [ht]
      decide
    simp [hterm, ht]
    decide
  · simp [ExecutionService.resultFromDb, ht]
  · simp [ExecutionService.resultFromDb, ht]
  · simp [ExecutionService.resultFromDb, hec]
  · simp [ExecutionService.resultFromDb, hse]

/-- Claim C10, witness at a concrete input: a queued job hit by markTimeout
is observed through getJobStatus with the four asserted result fields. -/
theorem claim_c10_witness :
    CompileJobRepository.markTimeout (applyOps queuedJob
        [JobOp.opTimedOut 5]) 9 =
      { applyOps queuedJob [JobOp.opTimedOut 5] with
        status := JobStatus.timeout
        completedAt := some 9
        stderr := some "Execution timed out"
        exitCode := some 124 } ∧
    ExecutionService.getJobStatus [applyOps queuedJob [JobOp.opTimedOut 5]] []
        (applyOps queuedJob [JobOp.opTimedOut 5]).id =
      Except.ok
        { status := JobStatus.timeout
          result := some (ExecutionService.resultFromDb
            (applyOps queuedJob [JobOp.opTimedOut 5]))
          position := none } ∧
    (ExecutionService.resultFromDb (applyOps queuedJob
      [JobOp.opTimedOut 5])).success = false ∧
    (ExecutionService.resultFromDb (applyOps queuedJob
      [JobOp.opTimedOut 5])).timedOut = true ∧
    (ExecutionService.resultFromDb (applyOps queuedJob
      [JobOp.opTimedOut 5])).exitCode = 124 ∧
    (ExecutionService.resultFromDb (applyOps queuedJob
      [JobOp.opTimedOut 5])).stderr = "Execution timed out" :=
  claim_c10 queuedJob [JobOp.opTimedOut 5] 9 [] rfl rfl

/-- Identifier pairs of a document's items. -/
def docIds (d : YDoc) : List (Nat × Nat) :=
  d.map (fun it => (it.author, it.clock))

/-- hasItem answers membership of the id pair. -/
theorem hasItem_iff_mem_docIds (d : YDoc) (a c : Nat) :
    Yjs.hasItem d a c = true ↔ (a, c) ∈ docIds d := by
  unfold Yjs.hasItem docIds
  rw [List.any_eq_true]
  simp only [List.mem_map, Bool.and_eq_true, beq_iff_eq]
  constructor
  · rintro ⟨it, hmem, h1, h2⟩
    exact ⟨it, hmem, by rw [h1, h2]⟩
  · rintro ⟨it, hmem, hpair⟩
    have h1 : it.author = a := congrArg Prod.fst hpair
    have h2 : it.clock = c := congrArg Prod.snd hpair
    exact ⟨it, hmem, h1, h2⟩

/-- Applying an update whose items are all unknown to the document and carry
distinct ids appends the items in order. -/
theorem applyUpdate_of_fresh :
    ∀ (upd : List YItem) (acc : YDoc),
      (∀ it ∈ upd, Yjs.hasItem acc it.author it.clock = false) →
      (docIds upd).Nodup →
      Yjs.applyUpdate acc upd = acc ++ upd := by
  intro upd
  induction upd with
  | nil =>
    intro acc _ _
    simp [Yjs.applyUpdate]
  | cons a t ih =>
    intro acc hfresh hnodup
    have hha : Yjs.hasItem acc a.author a.clock = false :=
      hfresh a (List.mem_cons_self a t)
    have hstep : Yjs.applyUpdate acc (a :: t) =
        Yjs.applyUpdate (acc ++ [a]) t := by
      unfold Yjs.applyUpdate
      rw [List.foldl_cons, hha]
      simp
    rw [hstep]
    have hcons : docIds (a :: t) = (a.author, a.clock) :: docIds t := rfl
    rw [hcons] at hnodup
    have hnd := List.nodup_cons.mp hnodup
    have hfresh2 : ∀ it ∈ t, Yjs.hasItem (acc ++ [a]) it.author it.clock =
        false := by
      intro it hit
      have hacc : Yjs.hasItem acc it.author it.clock = false :=
        hfresh it (List.mem_cons_of_mem a hit)
      have hid : (it.author, it.clock) ≠ (a.author, a.clock) := by
        intro hcon
        apply hnd.1
        rw [← hcon]
        exact List.mem_map_of_mem (fun x => (x.author, x.clock)) hit
      unfold Yjs.hasItem at hacc ⊢
      rw [List.any_append, hacc]
      simp only [Bool.false_or, List.any_cons, List.any_nil, Bool.or_false]
      rw [Bool.and_eq_false_iff]
      by_cases hau : it.author = a.author
      · right
        rw [beq_eq_false_iff_ne]
        intro hcl
        exact hid (by rw [hau, hcl])
      · left
        rw [beq_eq_false_iff_ne]
        intro hcon
        exact hau (by rw [hcon])
    rw [ih (acc ++ [a]) hfresh2 hnd.2]
    simp

/-- The full-state encoding (target state vector zero) is the document
itself. -/
theorem encodeStateAsUpdate_zero (d : YDoc) :
    Yjs.encodeStateAsUpdate d (fun _ => 0) = d := by
  unfold Yjs.encodeStateAsUpdate
  rw [List.filter_eq_self]
  intro it _
  simp

/-- The round trip the spec asserts: encoding the full state (against the
empty state vector, as a fresh peer requires) and applying it to a fresh
document reproduces the document, hence its "code" text. This is the law the
integrity check was meant to test; the source instead encodes against the
document's own state vector. -/
theorem roundTrip_fullState (d : YDoc) (h : (docIds d).Nodup) :
    Yjs.applyUpdate [] (Yjs.encodeStateAsUpdate d (fun _ => 0)) = d := by
  rw [encodeStateAsUpdate_zero]
  have := applyUpdate_of_fresh d [] (fun it _ => rfl) h
  simpa using this

/-- Every item's clock lies below the document's own state vector entry. -/
theorem clock_lt_stateVectorClock (d : YDoc) (it : YItem) (hmem : it ∈ d) :
    it.clock + 1 ≤ Yjs.stateVectorClock d it.author := by
  induction d with
  | nil => cases hmem
  | cons a t ih =>
    rcases List.mem_cons.mp hmem with hit | hit
    · subst hit
      simp only [Yjs.stateVectorClock, List.foldr_cons, if_pos rfl]
      exact le_max_right _ _
    · have hrec := ih hit
      simp only [Yjs.stateVectorClock, List.foldr_cons] at hrec ⊢
      by_cases hau : a.author = it.author
      · rw [if_pos hau]
        exact le_trans hrec (le_max_left _ _)
      · rw [if_neg hau]
        exact hrec

/-- Encoding a document against its own state vector is the empty delta. -/
theorem encodeStateAsUpdate_self (d : YDoc) :
    Yjs.encodeStateAsUpdate d (Yjs.stateVectorClock d) = [] := by
  unfold Yjs.encodeStateAsUpdate
  rw [List.filter_eq_nil_iff]
  intro it hmem
  have := clock_lt_stateVectorClock d it hmem
  simp only [decide_eq_true_iff, not_le]
  omega
